import Mathlib

/-!
Shallow embedding of the two StackStorm email actions
(`process_email_headers.py` and `send_html_email.py`) and proofs of the
specification claims about them.

Python strings are Lean `String`s; the character-level helpers below model
the stdlib routines the actions call (`str.split`, `email.utils.parseaddr`,
`email.utils.formataddr`, `re.search`).  Python `set`s of address tuples are
modelled as duplicate-free lists built by insert-if-absent (`setAdd`), a
deterministic refinement of the unordered set; `set.pop()` is modelled as
taking the head, and popping an empty set is the `KeyError` case.
-/

namespace EmailPack

/-- An address tuple as returned by `email.utils.parseaddr`:
`(display-name, email-address)`. -/
abbrev Addr := String × String

/-- Python exceptions the actions can raise. -/
inductive PyErr where
  | keyError (msg : String)
  | valueError (msg : String)
deriving DecidableEq

/-- Whitespace for the purposes of `str.strip` / address parsing. -/
def isSpaceChar (c : Char) : Bool :=
  c == ' ' || c == '\t' || c == '\n' || c == '\r'

/-- Model of Python str.strip on a character list. -/
def trimChars (l : List Char) : List Char :=
  ((l.dropWhile isSpaceChar).reverse.dropWhile isSpaceChar).reverse

/-- Python `str.split(sep)` for a one-character separator. -/
def splitOnChar (sep : Char) : List Char → List (List Char)
  | [] => [[]]
  | c :: cs =>
    let r := splitOnChar sep cs
    if c == sep then [] :: r
    else
      match r with
      | [] => [[c]]
      | g :: gs => (c :: g) :: gs

/-- Python str.split with the two-character comma-space separator used for
SMTP envelope recipients, consuming separators left to right. -/
def splitCommaSpace : List Char → List (List Char)
  | [] => [[]]
  | ',' :: ' ' :: rest => [] :: splitCommaSpace rest
  | c :: rest =>
    match splitCommaSpace rest with
    | [] => [[c]]
    | g :: gs => (c :: g) :: gs

/-- Joining in the style of Python str.join with a fixed separator. -/
def joinWith (sep : String) : List String → String
  | [] => ""
  | [x] => x
  | x :: y :: ys => x ++ sep ++ joinWith sep (y :: ys)

/-- Modelled from the stdlib: `email.utils.parseaddr` restricted to the
simple `Name <addr>` and bare-address forms the actions receive; malformed
input degrades to an empty display name and the stripped text, matching the
lenient contract. -/
def parseaddr (s : String) : Addr :=
  let t := trimChars s.data
  if t.any (fun c => c == '<') then
    let name := trimChars (t.takeWhile (fun c => c != '<'))
    let addr := ((t.dropWhile (fun c => c != '<')).drop 1).takeWhile (fun c => c != '>')
    (String.mk name, String.mk addr)
  else
    ("", String.mk t)

/-- Modelled from the stdlib: `email.utils.formataddr` — `Name <addr>` when a
display name is present, the bare address otherwise. -/
def formataddr (a : Addr) : String :=
  if a.1 = "" then a.2 else a.1 ++ " <" ++ a.2 ++ ">"

/-- Python `set.add`: insert the tuple if it is not already present. -/
def setAdd (s : List Addr) (x : Addr) : List Addr :=
  if x ∈ s then s else s ++ [x]

/-- Python `set.union`. -/
def setUnion (a b : List Addr) : List Addr :=
  a ++ b.filter (fun x => !(decide (x ∈ a)))

/-- Does some tuple in the set carry this email address? -/
def emailIn (s : List Addr) (e : String) : Bool :=
  s.any (fun t => t.2 == e)

/-! ### Header constants (`process_email_headers.py`) -/

def TO_HEADER_STRING : String := "To"
def FROM_HEADER_STRING : String := "From"
def CC_HEADER_STRING : String := "Cc"
def DELIVERED_TO_HEADER_STRING : String := "Delivered-To"
def REFERENCES_STRING : String := "References"
def MESSAGE_ID_STRING : String := "Message-Id"

/-- The accumulator of `ProcessEmailHeaders.parse_headers`. -/
structure PHState where
  header_to : List Addr
  header_from : List Addr
  header_cc : List Addr
  header_self : List Addr
  header_references : String
  header_reply_to : String
deriving DecidableEq

/-- The inner loop body of `parse_headers`: parse one comma-separated
segment and add it to the set selected by the header name. -/
def addOne (name seg : String) (st : PHState) : PHState :=
  let t := parseaddr seg
  if name = FROM_HEADER_STRING then { st with header_from := setAdd st.header_from t }
  else if name = TO_HEADER_STRING then { st with header_to := setAdd st.header_to t }
  else if name = CC_HEADER_STRING then { st with header_cc := setAdd st.header_cc t }
  else if name = DELIVERED_TO_HEADER_STRING then
    { st with header_self := setAdd st.header_self t }
  else st

/-- The `for addr in addr_array` loop of `parse_headers`. -/
def addSegments (name : String) : List String → PHState → PHState
  | [], st => st
  | seg :: rest, st => addSegments name rest (addOne name seg st)

/-- One iteration of the `for header in headers` loop of `parse_headers`. -/
def processHeader (st : PHState) (header : String × String) : PHState :=
  let st1 :=
    if header.1 = TO_HEADER_STRING ∨ header.1 = FROM_HEADER_STRING ∨
       header.1 = CC_HEADER_STRING ∨ header.1 = DELIVERED_TO_HEADER_STRING then
      addSegments header.1 ((splitOnChar ',' header.2.data).map String.mk) st
    else st
  let st2 :=
    if header.1 = REFERENCES_STRING then
      { st1 with header_references := st1.header_references ++ header.2 }
    else st1
  if header.1 = MESSAGE_ID_STRING then { st2 with header_reply_to := header.2 }
  else st2

/-- Model of `ProcessEmailHeaders.parse_headers`: fold the loop over the header list,
then append the captured message id (when non-empty, i.e. truthy) to the
references string. -/
def parse_headers (headers : List (String × String)) : PHState :=
  let st := headers.foldl processHeader ⟨[], [], [], [], "", ""⟩
  if st.header_reply_to ≠ "" then
    { st with header_references := st.header_references ++ " " ++ st.header_reply_to }
  else st

/-! ### Regex model and `check_allowed` -/

/-- Pattern body matches the whole input (used under both anchors). -/
def reMatch : List Char → List Char → Bool
  | [], [] => true
  | [], _ :: _ => false
  | _ :: _, [] => false
  | p :: ps, c :: cs => (p == '.' || p == c) && reMatch ps cs

/-- Pattern body matches some prefix of the input. -/
def reMatchPre : List Char → List Char → Bool
  | [], _ => true
  | _ :: _, [] => false
  | p :: ps, c :: cs => (p == '.' || p == c) && reMatchPre ps cs

/-- Pattern body matches some suffix of the input in full (end-anchored
search). -/
def reSearchSuffix (body : List Char) : List Char → Bool
  | [] => reMatch body []
  | c :: cs => reMatch body (c :: cs) || reSearchSuffix body cs

/-- Pattern body matches somewhere in the input (unanchored search). -/
def reSearchAny (body : List Char) : List Char → Bool
  | [] => reMatchPre body []
  | c :: cs => reMatchPre body (c :: cs) || reSearchAny body cs

/-- Strip a trailing `$` anchor, reporting whether it was present. -/
def splitDollar (l : List Char) : List Char × Bool :=
  if l.getLast? = some '$' then (l.dropLast, true) else (l, false)

/-- Modelled from the stdlib: `re.search` for patterns made of literal
characters, the `.` wildcard, a leading `^` anchor and a trailing `$`
anchor — the shape of every pattern `check_allowed` constructs
(at-sign + domain + dollar, and caret + user + dollar). -/
def reSearch (pat s : String) : Bool :=
  match pat.data with
  | '^' :: rest =>
    match splitDollar rest with
    | (body, true) => reMatch body s.data
    | (body, false) => reMatchPre body s.data
  | pc =>
    match splitDollar pc with
    | (body, true) => reSearchSuffix body s.data
    | (body, false) => reSearchAny body s.data

/-- Model of `ProcessEmailHeaders.check_allowed`: true when some from-address matches
some allowed domain pattern (end-anchored) or some allowed user pattern
(fully anchored). -/
def check_allowed (header_from : List Addr) (allowed_domains allowed_users : List String) :
    Bool :=
  allowed_domains.any (fun domain =>
    header_from.any (fun t => reSearch ("@" ++ domain ++ "$") t.2)) ||
  allowed_users.any (fun user =>
    header_from.any (fun t => reSearch ("^" ++ user ++ "$") t.2))

/-! ### `add_enforced_cc` -/

/-- Model of `ProcessEmailHeaders.add_enforced_cc`: for each mandatory address, add
its parsed tuple to `header_cc` unless an address with the same email part
already sits in `header_to`, the accumulated `header_cc`, or
`header_from`. -/
def add_enforced_cc : List String → List Addr → List Addr → List Addr → List Addr
  | [], _, header_cc, _ => header_cc
  | cc_addr :: rest, header_to, header_cc, header_from =>
    let t := parseaddr cc_addr
    let ex := emailIn header_to t.2 || emailIn header_cc t.2 || emailIn header_from t.2
    add_enforced_cc rest header_to (if ex then header_cc else setAdd header_cc t) header_from

/-! ### `process_results` and `run` -/

/-- The result mapping returned to StackStorm; `resTo`..`resInReplyTo` stand
for the `to`, `from`, `cc`, `references`, `in_reply_to` keys. -/
structure EmailResult where
  resTo : String
  resFrom : String
  resCc : String
  resReferences : String
  resInReplyTo : String
deriving DecidableEq

/-- The self-deduplication loop of `process_results`: drop every to-address
whose email part equals the email part of some delivered-to address. -/
def dedupSelf (header_to header_self : List Addr) : List Addr :=
  header_to.filter (fun a => !(header_self.any (fun s => s.2 == a.2)))

/-- Model of `ProcessEmailHeaders.process_results`: deduplicate against the self set,
merge the from set into the to set, render the address strings, and take the
first self address as `from` — popping an empty self set is the `KeyError`
path. -/
def process_results (header_from header_to header_cc header_self : List Addr)
    (header_references header_in_reply_to : String) : Except PyErr EmailResult :=
  let to2 := setUnion (dedupSelf header_to header_self) header_from
  let toStr := joinWith ", " (to2.map formataddr)
  let ccStr := joinWith ", " (header_cc.map formataddr)
  match header_self with
  | [] => .error (.keyError "pop from an empty set")
  | s :: _ => .ok ⟨toStr, formataddr s, ccStr, header_references, header_in_reply_to⟩

/-- The observable outcome of one `ProcessEmailHeaders.run` invocation:
a returned result mapping, a `sys.exit` with the log line emitted just
before it, or a raised exception. -/
inductive RunOutcome where
  | ok (res : EmailResult)
  | exited (code : Nat) (logMsg : String)
  | error (e : PyErr)
deriving DecidableEq

/-- Is the outcome a `sys.exit`? -/
def RunOutcome.isExit : RunOutcome → Bool
  | .exited _ _ => true
  | _ => false

/-- The `cc` string of a returned result (empty for non-`ok` outcomes). -/
def RunOutcome.getCc : RunOutcome → String
  | .ok r => r.resCc
  | _ => ""

/-- Model of `ProcessEmailHeaders.run`: parse, enforce the allow-list when one is
configured (popping a from-address for the rejection log, which raises
`KeyError` on an empty from set), inject mandatory CCs when configured, and
assemble the result. -/
def runAction (headers : List (String × String))
    (enforce_cc allowed_domains allowed_users : List String) : RunOutcome :=
  let ph := parse_headers headers
  let allowed : Bool :=
    if allowed_domains.isEmpty && allowed_users.isEmpty then true
    else check_allowed ph.header_from allowed_domains allowed_users
  if allowed then
    let header_cc :=
      if enforce_cc.isEmpty then ph.header_cc
      else add_enforced_cc enforce_cc ph.header_to ph.header_cc ph.header_from
    match process_results ph.header_from ph.header_to header_cc ph.header_self
        ph.header_references ph.header_reply_to with
    | .ok r => .ok r
    | .error e => .error e
  else
    match ph.header_from with
    | [] => .error (.keyError "pop from an empty set")
    | t :: _ => .exited 1 ("User not permitted: " ++ formataddr t)

/-! ### `send_html_email.py` -/

/-- One account entry of the `imap_mailboxes` configuration mapping. -/
structure AccountData where
  server : String
  port : Nat
  username : String
  password : String
deriving DecidableEq

/-- A text sub-part of the `alternative` container (`MIMEText`). -/
structure TextPart where
  subtype : String
  content : String
deriving DecidableEq

/-- An inline image part attached to the root container (`MIMEImage`); the
file bytes and sniffed subtype are I/O outside the embedding, the name and
Content-ID are what the code computes. -/
structure ImagePart where
  filename : String
  contentId : String
deriving DecidableEq

/-- The multipart message `SendEmail.run` builds: a `related` root with the
listed headers and preamble, one nested `alternative` container holding the
text sub-parts, and the image parts attached to the root. -/
structure MimeMessage where
  subtype : String
  headers : List (String × String)
  preamble : String
  altSubtype : String
  altParts : List TextPart
  imageParts : List ImagePart
deriving DecidableEq

/-- The SMTP session the happy path opens and uses (`SMTP(server, port,
timeout=20)`, `login`, `sendmail(from, toaddrs, ...)`). -/
structure SmtpSession where
  server : String
  port : Nat
  timeout : Nat
  username : String
  password : String
  envFrom : String
  envTo : List String
deriving DecidableEq

/-- Model of os.path.basename for slash-separated paths. -/
def basename (p : String) : String :=
  String.mk (((splitOnChar '/' p.data).getLastD p.data))

/-- Split a header field on comma-space into the envelope recipient list. -/
def splitCS (s : String) : List String :=
  (splitCommaSpace s.data).map String.mk

/-- A simple serialization of the `alternative` container, one sub-part
after the other with its content type line. -/
def serializeAltParts : List TextPart → String
  | [] => ""
  | p :: ps =>
    "Content-Type: text/" ++ p.subtype ++ "\n\n" ++ p.content ++ "\n" ++ serializeAltParts ps

/-- Model of `SendEmail.run` up to the observable effects: configuration lookup with
its two error paths, construction of the MIME message, and the parameters of
the SMTP session that would transmit it. -/
def sendEmailRun (imap_mailboxes : Option (List (String × AccountData)))
    (email_from email_to email_cc email_references email_in_reply_to subject
     account message_text message_html : String) (message_images : List String) :
    Except PyErr (MimeMessage × SmtpSession) :=
  match imap_mailboxes with
  | none =>
    .error (.valueError "\"imap_mailboxes\" config value is required to send email.")
  | some accounts =>
    if accounts.isEmpty then
      .error (.valueError "at least one account is required to send email.")
    else
      match accounts.find? (fun kv => kv.1 == account) with
      | none =>
        .error (.keyError ("The account \"" ++ account ++
          "\" does not seem to appear in the configuration. Available accounts are: " ++
          joinWith "," (accounts.map (fun kv => kv.1))))
      | some kv =>
        let account_data := kv.2
        let msgHeaders := [("Subject", subject), ("From", email_from), ("To", email_to),
          ("Cc", email_cc), ("References", email_references),
          ("In-Reply-To", email_in_reply_to)]
        let toaddrs :=
          if email_cc = "" then splitCS email_to else splitCS email_to ++ splitCS email_cc
        let altParts :=
          (if message_text = "" then [] else [TextPart.mk "plain" message_text]) ++
          (if message_html = "" then [] else [TextPart.mk "html" message_html])
        let imgs := message_images.map (fun path =>
          let name := basename path
          ImagePart.mk name ("<" ++ name ++ ">"))
        let msg : MimeMessage :=
          ⟨"related", msgHeaders, "This is a multi-part message in MIME format.",
           "alternative", altParts, imgs⟩
        let session : SmtpSession :=
          ⟨account_data.server, account_data.port, 20, account_data.username,
           account_data.password, email_from, toaddrs⟩
        .ok (msg, session)

/-- The message built by a send invocation, `none` when it errors before
reaching the MIME construction. -/
def builtMessage : Except PyErr (MimeMessage × SmtpSession) → Option MimeMessage
  | .ok p => some p.1
  | .error _ => none

/-- The SMTP session opened by a send invocation, `none` when it errors
before any connection. -/
def openedSession : Except PyErr (MimeMessage × SmtpSession) → Option SmtpSession
  | .ok p => some p.2
  | .error _ => none

/-- The alternative sub-parts of a send result (empty for the error
outcomes). -/
def altPartsOf : Except PyErr (MimeMessage × SmtpSession) → List TextPart
  | .ok p => p.1.altParts
  | .error _ => []

/-! ### Substring containment (for the "contains" clauses of the claims) -/

/-- Is the first list a prefix run of the second (character-wise)? -/
def listStartsWith : List Char → List Char → Bool
  | [], _ => true
  | _ :: _, [] => false
  | a :: as_, b :: bs => a == b && listStartsWith as_ bs

/-- Does the needle occur contiguously in the haystack? -/
def containsChars (needle : List Char) : List Char → Bool
  | [] => listStartsWith needle []
  | c :: cs => listStartsWith needle (c :: cs) || containsChars needle cs

/-- Substring containment on strings. -/
def strContains (hay needle : String) : Bool :=
  containsChars needle.data hay.data

/-! ### Spec-side reference functions for the `References`/`Message-Id` claim -/

/-- Spec-side reference function (for comparison with `parse_headers`): the
values of all occurrences of the `References` header, concatenated across
occurrences. -/
def specRefsConcat : List (String × String) → String
  | [] => ""
  | h :: t => (if h.1 = REFERENCES_STRING then h.2 else "") ++ specRefsConcat t

/-- Spec-side reference function (for comparison with `parse_headers`): the
latest `Message-Id` value, starting from a default. -/
def specLastMessageId : List (String × String) → String → String
  | [], d => d
  | h :: t, d => specLastMessageId t (if h.1 = MESSAGE_ID_STRING then h.2 else d)

/-! ## Lemmas about `parse_headers` -/

theorem addOne_header_references (name seg : String) (st : PHState) :
    (addOne name seg st).header_references = st.header_references := by
  unfold addOne
  (repeat' split) <;> rfl

theorem addOne_header_reply_to (name seg : String) (st : PHState) :
    (addOne name seg st).header_reply_to = st.header_reply_to := by
  unfold addOne
  (repeat' split) <;> rfl

theorem addSegments_header_references (name : String) (segs : List String) (st : PHState) :
    (addSegments name segs st).header_references = st.header_references := by
  induction segs generalizing st with
  | nil => rfl
  | cons seg rest ih => rw [addSegments, ih, addOne_header_references]

theorem addSegments_header_reply_to (name : String) (segs : List String) (st : PHState) :
    (addSegments name segs st).header_reply_to = st.header_reply_to := by
  induction segs generalizing st with
  | nil => rfl
  | cons seg rest ih => rw [addSegments, ih, addOne_header_reply_to]

theorem processHeader_header_references (st : PHState) (h : String × String) :
    (processHeader st h).header_references =
      st.header_references ++ (if h.1 = REFERENCES_STRING then h.2 else "") := by
  unfold processHeader
  by_cases h2 : h.1 = REFERENCES_STRING <;>
    by_cases h3 : h.1 = MESSAGE_ID_STRING <;>
      by_cases h1 : h.1 = TO_HEADER_STRING ∨ h.1 = FROM_HEADER_STRING ∨
        h.1 = CC_HEADER_STRING ∨ h.1 = DELIVERED_TO_HEADER_STRING <;>
    simp_all [addSegments_header_references, String.append_empty,
      TO_HEADER_STRING, FROM_HEADER_STRING, CC_HEADER_STRING,
      DELIVERED_TO_HEADER_STRING, REFERENCES_STRING, MESSAGE_ID_STRING]

theorem processHeader_header_reply_to (st : PHState) (h : String × String) :
    (processHeader st h).header_reply_to =
      if h.1 = MESSAGE_ID_STRING then h.2 else st.header_reply_to := by
  unfold processHeader
  by_cases h2 : h.1 = REFERENCES_STRING <;>
    by_cases h3 : h.1 = MESSAGE_ID_STRING <;>
      by_cases h1 : h.1 = TO_HEADER_STRING ∨ h.1 = FROM_HEADER_STRING ∨
        h.1 = CC_HEADER_STRING ∨ h.1 = DELIVERED_TO_HEADER_STRING <;>
    simp_all [addSegments_header_reply_to,
      TO_HEADER_STRING, FROM_HEADER_STRING, CC_HEADER_STRING,
      DELIVERED_TO_HEADER_STRING, REFERENCES_STRING, MESSAGE_ID_STRING]

theorem foldl_processHeader_spec (headers : List (String × String)) (st : PHState) :
    ((headers.foldl processHeader st).header_references =
        st.header_references ++ specRefsConcat headers) ∧
    ((headers.foldl processHeader st).header_reply_to =
        specLastMessageId headers st.header_reply_to) := by
  induction headers generalizing st with
  | nil => simp [specRefsConcat, specLastMessageId, String.append_empty]
  | cons h t ih =>
    simp only [List.foldl_cons, specRefsConcat, specLastMessageId]
    obtain ⟨ih1, ih2⟩ := ih (processHeader st h)
    refine ⟨?_, ?_⟩
    · rw [ih1, processHeader_header_references, String.append_assoc]
    · rw [ih2, processHeader_header_reply_to]

/-! ## The claims -/

/-- C1 (amended): for the end-to-end scenario with
headers From Alice, To Bob, Delivered-To Bob, enforce_cc audit@a.com and no
allow-list, `ProcessEmailHeaders.run` returns to = Alice <alice@a.com>,
from = Bob <bob@b.com> and cc = audit@a.com — the enforced CC renders as
the bare address (formataddr emits no angle brackets for an empty display
name), not as <audit@a.com>. -/
theorem c1_end_to_end :
    runAction [("From", "Alice <alice@a.com>"), ("To", "Bob <bob@b.com>"),
        ("Delivered-To", "Bob <bob@b.com>")] ["audit@a.com"] [] [] =
      .ok ⟨"Alice <alice@a.com>", "Bob <bob@b.com>", "audit@a.com", "", ""⟩ := by decide

/-- C1 counterexample: in that same scenario the cc field of the result is
audit@a.com and therefore not <audit@a.com> as the claim states. -/
theorem c1_counterexample :
    (runAction [("From", "Alice <alice@a.com>"), ("To", "Bob <bob@b.com>"),
        ("Delivered-To", "Bob <bob@b.com>")] ["audit@a.com"] [] []).getCc = "audit@a.com" ∧
    (runAction [("From", "Alice <alice@a.com>"), ("To", "Bob <bob@b.com>"),
        ("Delivered-To", "Bob <bob@b.com>")] ["audit@a.com"] [] []).getCc ≠
      "<audit@a.com>" := by
  decide

/-- C2 (amended): `parse_headers` concatenates the values of all
occurrences of the References header directly, with no separator between
occurrences; it captures the latest Message-Id value as in_reply_to; and
when a non-empty Message-Id was captured it appends it, space-separated, to
the returned references string. -/
theorem c2_references_amended (headers : List (String × String)) :
    (parse_headers headers).header_reply_to = specLastMessageId headers "" ∧
    (parse_headers headers).header_references =
      specRefsConcat headers ++
        (if specLastMessageId headers "" = "" then ""
         else " " ++ specLastMessageId headers "") := by
  obtain ⟨h1, h2⟩ := foldl_processHeader_spec headers ⟨[], [], [], [], "", ""⟩
  rw [String.empty_append] at h1
  have key : ∀ st : PHState,
      ((if st.header_reply_to ≠ "" then
          { st with header_references := st.header_references ++ " " ++ st.header_reply_to }
        else st).header_reply_to = st.header_reply_to) ∧
      ((if st.header_reply_to ≠ "" then
          { st with header_references := st.header_references ++ " " ++ st.header_reply_to }
        else st).header_references =
        st.header_references ++
          (if st.header_reply_to = "" then "" else " " ++ st.header_reply_to)) := by
    intro st
    by_cases hr : st.header_reply_to = "" <;>
      simp [hr, String.append_empty, String.append_assoc]
  obtain ⟨k1, k2⟩ := key (List.foldl processHeader ⟨[], [], [], [], "", ""⟩ headers)
  unfold parse_headers
  refine ⟨?_, ?_⟩
  · rw [k1, h2]
  · rw [k2, h1, h2]

/-- C2 counterexample: two References headers with values a and b yield the
references string ab, not the space-joined a b the claim asks for. -/
theorem c2_references_counterexample :
    (parse_headers [("References", "a"), ("References", "b")]).header_references = "ab" ∧
    "ab" ≠ "a b" := by decide

/-- C6: whenever `process_results` runs with an empty self set (no
Delivered-To header was parsed), it fails with the empty-collection
KeyError of popping an empty set instead of returning a result mapping. -/
theorem c6_empty_self_error (header_from header_to header_cc : List Addr)
    (header_references header_in_reply_to : String) :
    process_results header_from header_to header_cc [] header_references
        header_in_reply_to =
      .error (.keyError "pop from an empty set") := rfl

/-- C3: `check_allowed` returns true exactly when some from-address email
matches some end-anchored at-domain pattern or some fully anchored user
pattern; in particular user@corp.com is allowed for domain corp.com and
rejected for domain other.com. -/
theorem c3_check_allowed_characterization :
    (∀ (header_from : List Addr) (allowed_domains allowed_users : List String),
      check_allowed header_from allowed_domains allowed_users = true ↔
        ((∃ domain ∈ allowed_domains, ∃ t ∈ header_from,
            reSearch ("@" ++ domain ++ "$") t.2 = true) ∨
         (∃ user ∈ allowed_users, ∃ t ∈ header_from,
            reSearch ("^" ++ user ++ "$") t.2 = true))) ∧
    check_allowed [("", "user@corp.com")] ["corp.com"] [] = true ∧
    check_allowed [("", "user@corp.com")] ["other.com"] [] = false := by
  refine ⟨?_, by decide, by decide⟩
  intro f ds us
  simp [check_allowed, List.any_eq_true, Bool.or_eq_true]

/-! ## Lemmas about `add_enforced_cc` -/

theorem mem_setAdd_of_mem (s : List Addr) (x y : Addr) (hx : x ∈ s) : x ∈ setAdd s y := by
  unfold setAdd
  split
  · exact hx
  · exact List.mem_append_left _ hx

theorem self_mem_setAdd (s : List Addr) (y : Addr) : y ∈ setAdd s y := by
  unfold setAdd
  split
  · assumption
  · exact List.mem_append_right _ (List.mem_singleton.mpr rfl)

theorem emailIn_of_mem (s : List Addr) (x : Addr) (hx : x ∈ s) : emailIn s x.2 = true := by
  simp only [emailIn, List.any_eq_true]
  exact ⟨x, hx, by simp⟩

theorem emailIn_setAdd_of (s : List Addr) (y : Addr) (e : String) (h : emailIn s e = true) :
    emailIn (setAdd s y) e = true := by
  simp only [emailIn, List.any_eq_true] at h ⊢
  obtain ⟨t, ht, he⟩ := h
  exact ⟨t, mem_setAdd_of_mem s t y ht, he⟩

theorem mem_add_enforced_cc_of_mem (l : List String) (to_ cc fro : List Addr) (x : Addr)
    (hx : x ∈ cc) : x ∈ add_enforced_cc l to_ cc fro := by
  induction l generalizing cc with
  | nil => exact hx
  | cons a rest ih =>
    simp only [add_enforced_cc]
    apply ih
    split
    · exact hx
    · exact mem_setAdd_of_mem cc x (parseaddr a) hx

theorem emailIn_add_enforced_cc_of (l : List String) (to_ cc fro : List Addr) (e : String)
    (h : emailIn cc e = true) : emailIn (add_enforced_cc l to_ cc fro) e = true := by
  simp only [emailIn, List.any_eq_true] at h ⊢
  obtain ⟨t, ht, he⟩ := h
  exact ⟨t, mem_add_enforced_cc_of_mem l to_ cc fro t ht, he⟩

theorem email_covered (l : List String) (to_ cc fro : List Addr) (e : String) (he : e ∈ l) :
    (emailIn to_ (parseaddr e).2 || emailIn (add_enforced_cc l to_ cc fro) (parseaddr e).2 ||
      emailIn fro (parseaddr e).2) = true := by
  induction l generalizing cc with
  | nil => cases he
  | cons a rest ih =>
    simp only [add_enforced_cc]
    rcases List.mem_cons.mp he with rfl | hmem
    · by_cases hex : (emailIn to_ (parseaddr e).2 || emailIn cc (parseaddr e).2 ||
        emailIn fro (parseaddr e).2) = true
      · rcases (by simpa [Bool.or_eq_true] using hex) with (h | h) | h
        · simp [h]
        · rw [if_pos hex]
          have h2 := emailIn_add_enforced_cc_of rest to_ cc fro (parseaddr e).2 h
          simp [h2]
        · simp [h]
      · rw [if_neg hex]
        have hmem2 : emailIn (setAdd cc (parseaddr e)) (parseaddr e).2 = true :=
          emailIn_of_mem _ _ (self_mem_setAdd cc (parseaddr e))
        have h2 := emailIn_add_enforced_cc_of rest to_ (setAdd cc (parseaddr e)) fro
          (parseaddr e).2 hmem2
        simp [h2]
    · exact ih _ hmem

theorem add_enforced_cc_eq_of_covered (l : List String) (to_ cc fro : List Addr)
    (h : ∀ e ∈ l, (emailIn to_ (parseaddr e).2 || emailIn cc (parseaddr e).2 ||
      emailIn fro (parseaddr e).2) = true) :
    add_enforced_cc l to_ cc fro = cc := by
  induction l with
  | nil => rfl
  | cons a rest ih =>
    have ha := h a (List.mem_cons_self a rest)
    simp only [add_enforced_cc]
    rw [if_pos ha]
    exact ih (fun e hee => h e (List.mem_cons_of_mem a hee))

/-- C4: `add_enforced_cc` is idempotent — a second application with the
same mandatory list to the cc set produced by the first is the identity —
and every address of its output is either an input cc address or the parsed
tuple of a mandatory entry whose email appears nowhere in the to, input cc,
or from sets. -/
theorem c4_add_enforced_cc_idempotent :
    ∀ (enforce_cc : List String) (header_to header_cc header_from : List Addr),
      add_enforced_cc enforce_cc header_to
          (add_enforced_cc enforce_cc header_to header_cc header_from) header_from =
        add_enforced_cc enforce_cc header_to header_cc header_from ∧
      ∀ x ∈ add_enforced_cc enforce_cc header_to header_cc header_from,
        x ∈ header_cc ∨
          ∃ e ∈ enforce_cc, x = parseaddr e ∧ emailIn header_to x.2 = false ∧
            emailIn header_cc x.2 = false ∧ emailIn header_from x.2 = false := by
  intro l to_ cc fro
  constructor
  · exact add_enforced_cc_eq_of_covered l to_ _ fro
      (fun e he => email_covered l to_ cc fro e he)
  · induction l generalizing cc with
    | nil => intro x hx; exact Or.inl hx
    | cons a rest ih =>
      intro x hx
      simp only [add_enforced_cc] at hx
      by_cases hex : (emailIn to_ (parseaddr a).2 || emailIn cc (parseaddr a).2 ||
        emailIn fro (parseaddr a).2) = true
      · rw [if_pos hex] at hx
        rcases ih cc x hx with hcc | ⟨e, he, hxe, h1, h2, h3⟩
        · exact Or.inl hcc
        · exact Or.inr ⟨e, List.mem_cons_of_mem a he, hxe, h1, h2, h3⟩
      · rw [if_neg hex] at hx
        obtain ⟨⟨hx1, hx2⟩, hx3⟩ : (emailIn to_ (parseaddr a).2 = false ∧
            emailIn cc (parseaddr a).2 = false) ∧ emailIn fro (parseaddr a).2 = false := by
          simpa [Bool.or_eq_true, Bool.not_eq_true] using hex
        rcases ih (setAdd cc (parseaddr a)) x hx with hcc | ⟨e, he, hxe, h1, h2, h3⟩
        · unfold setAdd at hcc
          rw [if_neg ?_] at hcc
          · rcases List.mem_append.mp hcc with hc | hp
            · exact Or.inl hc
            · have hxp : x = parseaddr a := List.mem_singleton.mp hp
              exact Or.inr ⟨a, List.mem_cons_self a rest, hxp, by rw [hxp]; exact hx1,
                by rw [hxp]; exact hx2, by rw [hxp]; exact hx3⟩
          · intro hp
            have := emailIn_of_mem cc (parseaddr a) hp
            rw [this] at hx2
            cases hx2
        · refine Or.inr ⟨e, List.mem_cons_of_mem a he, hxe, h1, ?_, h3⟩
          cases hgc : emailIn cc x.2 with
          | false => rfl
          | true =>
            have := emailIn_setAdd_of cc (parseaddr a) x.2 hgc
            rw [this] at h2
            cases h2

/-- C5: the to set that `process_results` renders holds exactly the
original to-addresses whose email matches no self-address, together with
all from-addresses; on the concrete From-A To-B Delivered-To-B headers the
rendered to string is A <a@x.com> — which contains A <a@x.com> and not
B <b@y.com> — and the from string is B <b@y.com>. -/
theorem c5_process_results_merge :
    (∀ (header_to header_self header_from : List Addr) (x : Addr),
      x ∈ setUnion (dedupSelf header_to header_self) header_from ↔
        ((x ∈ header_to ∧ ∀ s ∈ header_self, s.2 ≠ x.2) ∨ x ∈ header_from)) ∧
    process_results [("A", "a@x.com")] [("B", "b@y.com")] [] [("B", "b@y.com")] "" "" =
      .ok ⟨"A <a@x.com>", "B <b@y.com>", "", "", ""⟩ ∧
    strContains "A <a@x.com>" "A <a@x.com>" = true ∧
    strContains "A <a@x.com>" "B <b@y.com>" = false := by
  refine ⟨?_, rfl, by decide, by decide⟩
  intro to_ self fro x
  simp only [setUnion, dedupSelf, List.mem_append, List.mem_filter, List.any_eq_true,
    Bool.not_eq_true', Bool.not_eq_true, decide_eq_false_iff_not, beq_iff_eq,
    List.any_eq_false]
  constructor
  · rintro (⟨hto, hns⟩ | ⟨hfro, _⟩)
    · exact Or.inl ⟨hto, hns⟩
    · exact Or.inr hfro
  · rintro (⟨hto, hns⟩ | hfro)
    · exact Or.inl ⟨hto, hns⟩
    · by_cases hmem : x ∈ to_ ∧ ∀ s ∈ self, ¬s.2 = x.2
      · exact Or.inl hmem
      · exact Or.inr ⟨hfro, fun hc => hmem hc⟩

/-- C7 (amended): when an allow-list is configured, `check_allowed` rejects
the parsed from set, and that from set is non-empty, `run` terminates the
process with exit status 1 after logging the popped rejected sender; no
exception and no result mapping are produced in that case. -/
theorem c7_allowlist_rejection (headers : List (String × String))
    (enforce_cc allowed_domains allowed_users : List String) (t : Addr) (rest : List Addr)
    (hpol : (allowed_domains.isEmpty && allowed_users.isEmpty) = false)
    (hrej : check_allowed (parse_headers headers).header_from allowed_domains
      allowed_users = false)
    (hfrom : (parse_headers headers).header_from = t :: rest) :
    runAction headers enforce_cc allowed_domains allowed_users =
      .exited 1 ("User not permitted: " ++ formataddr t) := by
  unfold runAction
  rw [hfrom] at hrej
  simp [hpol, hrej, hfrom]

/-- C7 witness: a concrete rejected sender exits with status 1 and the
rejection log line. -/
theorem c7_allowlist_rejection_witness :
    runAction [("From", "Eve <eve@evil.com>")] [] ["good.com"] [] =
      .exited 1 ("User not permitted: " ++ formataddr ("Eve", "eve@evil.com")) :=
  c7_allowlist_rejection [("From", "Eve <eve@evil.com>")] [] ["good.com"] []
    ("Eve", "eve@evil.com") [] (by decide) (by decide) (by decide)

/-- C7 counterexample: with an allow-list configured and no From header at
all, `run` raises the KeyError of popping the empty from set and does not
exit with status 1, refuting the claim for that invocation. -/
theorem c7_empty_from_counterexample :
    runAction [] [] ["x.com"] [] = .error (.keyError "pop from an empty set") ∧
    (runAction [] [] ["x.com"] []).isExit = false := by decide

/-- C10: when an allow-list is configured and the parsed from set is empty
(no From header), `run` raises the empty-collection KeyError while popping
the from set for the rejection log, instead of exiting with status 1. -/
theorem c10_empty_from_keyerror (headers : List (String × String))
    (enforce_cc allowed_domains allowed_users : List String)
    (hpol : (allowed_domains.isEmpty && allowed_users.isEmpty) = false)
    (hfrom : (parse_headers headers).header_from = []) :
    runAction headers enforce_cc allowed_domains allowed_users =
      .error (.keyError "pop from an empty set") := by
  unfold runAction
  have hca : check_allowed [] allowed_domains allowed_users = false := by
    simp [check_allowed, List.any_eq_true]
  simp [hpol, hca, hfrom]

/-- C10 witness: a concrete header list without a From header, under a
configured allow-list, yields the KeyError outcome. -/
theorem c10_empty_from_keyerror_witness :
    runAction [("To", "a <a@b.c>")] [] ["x.com"] [] =
      .error (.keyError "pop from an empty set") :=
  c10_empty_from_keyerror [("To", "a <a@b.c>")] [] ["x.com"] [] (by decide) (by decide)

/-! ## Lemmas about substring containment -/

theorem listStartsWith_append (s t : List Char) : listStartsWith s (s ++ t) = true := by
  induction s with
  | nil => rfl
  | cons a rest ih => simp [listStartsWith, ih]

theorem containsChars_append_left (pre l n : List Char) (h : containsChars n l = true) :
    containsChars n (pre ++ l) = true := by
  induction pre with
  | nil => exact h
  | cons c rest ih =>
    simp only [List.cons_append, containsChars, List.append_eq]
    rw [ih]
    simp

theorem containsChars_self (n t : List Char) : containsChars n (n ++ t) = true := by
  cases n with
  | nil =>
    cases t with
    | nil => rfl
    | cons c cs => simp [containsChars, listStartsWith]
  | cons a rest =>
    simp only [List.cons_append, containsChars, List.append_eq]
    have := listStartsWith_append (a :: rest) t
    simp only [List.cons_append] at this
    rw [this]
    simp

theorem strContains_append (a s b : String) : strContains (a ++ s ++ b) s = true := by
  unfold strContains
  rw [String.data_append, String.data_append, List.append_assoc]
  exact containsChars_append_left a.data _ s.data (containsChars_self s.data b.data)

theorem strContains_append_left (pre s n : String) (h : strContains s n = true) :
    strContains (pre ++ s) n = true := by
  unfold strContains at h ⊢
  rw [String.data_append]
  exact containsChars_append_left pre.data s.data n.data h

theorem strContains_serialize_head (p : TextPart) (ps : List TextPart) :
    strContains (serializeAltParts (p :: ps)) p.content = true := by
  simp only [serializeAltParts]
  rw [String.append_assoc ("Content-Type: text/" ++ p.subtype ++ "\n\n" ++ p.content) "\n"
    (serializeAltParts ps)]
  exact strContains_append ("Content-Type: text/" ++ p.subtype ++ "\n\n") p.content
    ("\n" ++ serializeAltParts ps)

/-- C8: `SendEmail.run` raises the required-configuration ValueError when
the account mapping is missing, the at-least-one-account ValueError when it
is empty, and the distinct account-not-found KeyError — whose message joins
the available account names — when the requested name is absent; in every
one of these cases no MIME message is built and no SMTP session is
opened. -/
theorem c8_account_errors :
    (∀ (ef et ec er eir subj acct mt mh : String) (imgs : List String),
      sendEmailRun none ef et ec er eir subj acct mt mh imgs =
        .error (.valueError "\"imap_mailboxes\" config value is required to send email.") ∧
      builtMessage (sendEmailRun none ef et ec er eir subj acct mt mh imgs) = none ∧
      openedSession (sendEmailRun none ef et ec er eir subj acct mt mh imgs) = none) ∧
    (∀ (ef et ec er eir subj acct mt mh : String) (imgs : List String),
      sendEmailRun (some []) ef et ec er eir subj acct mt mh imgs =
        .error (.valueError "at least one account is required to send email.") ∧
      builtMessage (sendEmailRun (some []) ef et ec er eir subj acct mt mh imgs) = none ∧
      openedSession (sendEmailRun (some []) ef et ec er eir subj acct mt mh imgs) = none) ∧
    (∀ (accounts : List (String × AccountData)) (ef et ec er eir subj acct mt mh : String)
      (imgs : List String),
      accounts ≠ [] →
      accounts.find? (fun kv => kv.1 == acct) = none →
      sendEmailRun (some accounts) ef et ec er eir subj acct mt mh imgs =
        .error (.keyError ("The account \"" ++ acct ++
          "\" does not seem to appear in the configuration. Available accounts are: " ++
          joinWith "," (accounts.map (fun kv => kv.1)))) ∧
      builtMessage (sendEmailRun (some accounts) ef et ec er eir subj acct mt mh imgs) =
        none ∧
      openedSession (sendEmailRun (some accounts) ef et ec er eir subj acct mt mh imgs) =
        none) := by
  refine ⟨fun ef et ec er eir subj acct mt mh imgs => ⟨rfl, rfl, rfl⟩,
    fun ef et ec er eir subj acct mt mh imgs => ⟨rfl, rfl, rfl⟩, ?_⟩
  intro accounts ef et ec er eir subj acct mt mh imgs hne hfind
  have hie : accounts.isEmpty = false := by
    cases accounts with
    | nil => exact absurd rfl hne
    | cons a l => rfl
  simp [sendEmailRun, hie, hfind, builtMessage, openedSession]

/-- C9: in the message `SendEmail.run` builds after a successful account
lookup, the alternative container holds the plain-text sub-part exactly
when message_text is non-empty and the HTML sub-part exactly when
message_html is non-empty; when both are supplied the container holds
exactly the two sub-parts and both bodies occur in the serialized
alternative container. -/
theorem c9_alternative_parts (accounts : List (String × AccountData))
    (ef et ec er eir subj acct mt mh : String) (imgs : List String)
    (kv : String × AccountData)
    (hfind : accounts.find? (fun x => x.1 == acct) = some kv) :
    (TextPart.mk "plain" mt ∈
        altPartsOf (sendEmailRun (some accounts) ef et ec er eir subj acct mt mh imgs) ↔
      mt ≠ "") ∧
    (TextPart.mk "html" mh ∈
        altPartsOf (sendEmailRun (some accounts) ef et ec er eir subj acct mt mh imgs) ↔
      mh ≠ "") ∧
    (mt ≠ "" → mh ≠ "" →
      altPartsOf (sendEmailRun (some accounts) ef et ec er eir subj acct mt mh imgs) =
        [⟨"plain", mt⟩, ⟨"html", mh⟩] ∧
      strContains (serializeAltParts (altPartsOf
        (sendEmailRun (some accounts) ef et ec er eir subj acct mt mh imgs))) mt = true ∧
      strContains (serializeAltParts (altPartsOf
        (sendEmailRun (some accounts) ef et ec er eir subj acct mt mh imgs))) mh = true) := by
  have hie : accounts.isEmpty = false := by
    cases accounts with
    | nil => simp at hfind
    | cons a l => rfl
  simp only [sendEmailRun, hie, hfind, altPartsOf, Bool.false_eq_true, if_false]
  refine ⟨?_, ?_, ?_⟩
  · by_cases hmt : mt = "" <;> by_cases hmh : mh = "" <;> simp [hmt, hmh]
  · by_cases hmt : mt = "" <;> by_cases hmh : mh = "" <;> simp [hmt, hmh]
  · intro hmt hmh
    have hparts : ((if mt = "" then [] else [TextPart.mk "plain" mt]) ++
        (if mh = "" then [] else [TextPart.mk "html" mh])) =
        [TextPart.mk "plain" mt, TextPart.mk "html" mh] := by
      simp [hmt, hmh]
    refine ⟨hparts, ?_, ?_⟩
    · rw [hparts]
      exact strContains_serialize_head ⟨"plain", mt⟩ [⟨"html", mh⟩]
    · rw [hparts]
      have h2 := strContains_serialize_head ⟨"html", mh⟩ ([] : List TextPart)
      have h3 := strContains_append_left
        ("Content-Type: text/" ++ "plain" ++ "\n\n" ++ mt ++ "\n")
        (serializeAltParts [⟨"html", mh⟩]) mh h2
      simpa [serializeAltParts, String.append_assoc] using h3

/-- C9 witness: a concrete send with both bodies supplied carries both
sub-parts, each present in the serialized container. -/
theorem c9_alternative_parts_witness :
    (TextPart.mk "plain" "Hello" ∈
        altPartsOf (sendEmailRun (some [("a", ⟨"smtp.example.com", 25, "u", "p"⟩)])
          "f@x.com" "t@x.com" "" "" "" "subj" "a" "Hello" "<p>Hello</p>" []) ↔
      "Hello" ≠ "") ∧
    (TextPart.mk "html" "<p>Hello</p>" ∈
        altPartsOf (sendEmailRun (some [("a", ⟨"smtp.example.com", 25, "u", "p"⟩)])
          "f@x.com" "t@x.com" "" "" "" "subj" "a" "Hello" "<p>Hello</p>" []) ↔
      "<p>Hello</p>" ≠ "") ∧
    ("Hello" ≠ "" → "<p>Hello</p>" ≠ "" →
      altPartsOf (sendEmailRun (some [("a", ⟨"smtp.example.com", 25, "u", "p"⟩)])
          "f@x.com" "t@x.com" "" "" "" "subj" "a" "Hello" "<p>Hello</p>" []) =
        [⟨"plain", "Hello"⟩, ⟨"html", "<p>Hello</p>"⟩] ∧
      strContains (serializeAltParts (altPartsOf
        (sendEmailRun (some [("a", ⟨"smtp.example.com", 25, "u", "p"⟩)])
          "f@x.com" "t@x.com" "" "" "" "subj" "a" "Hello" "<p>Hello</p>" [])))
        "Hello" = true ∧
      strContains (serializeAltParts (altPartsOf
        (sendEmailRun (some [("a", ⟨"smtp.example.com", 25, "u", "p"⟩)])
          "f@x.com" "t@x.com" "" "" "" "subj" "a" "Hello" "<p>Hello</p>" [])))
        "<p>Hello</p>" = true) :=
  c9_alternative_parts [("a", ⟨"smtp.example.com", 25, "u", "p"⟩)]
    "f@x.com" "t@x.com" "" "" "" "subj" "a" "Hello" "<p>Hello</p>" []
    ("a", ⟨"smtp.example.com", 25, "u", "p"⟩) (by decide)

end EmailPack
